import Mathlib

/-!
Shallow embedding of the offline-first chat message delivery engine of the
super-app repository, and proofs about it.

Primary sources:
* `src/ios/HostApp/MessageQueue.swift` — the durable outbox queue, retry /
  backoff handling, persistence via a `UserDefaults` blob.
* `src/src/chat/index.ts` — the JS-facing `ChatSDKImpl`
  (initialization guard, room subscription bookkeeping).

The native `ChatService` / `ChatModule` Swift sources are not part of the
source tree; the small pieces of behaviour the claims need from them
(idempotency-key generation, event forwarding, inbox pagination) are modelled
from the specification and are marked `Modelled from the spec:` in their doc
comments.

Machine integers are modelled as `Nat`/`Int`; `Date` values are modelled as
natural-number timestamps (seconds), `TimeInterval` delays as natural numbers
of seconds.
-/

namespace SuperApp

/-! ## Data model (from `src/ios/HostApp/MessageQueue.swift`) -/

/-- Swift `enum MessageStatus: String`. -/
inductive MessageStatus where
  | pending
  | sending
  | sent
  | failed
deriving DecidableEq

/-- The Swift raw value of a `MessageStatus`. -/
def MessageStatus.rawValue : MessageStatus → String
  | .pending => "PENDING"
  | .sending => "SENDING"
  | .sent => "SENT"
  | .failed => "FAILED"

/-- Swift `MessageStatus(rawValue:)`. -/
def MessageStatus.fromRaw (s : String) : Option MessageStatus :=
  if s = "PENDING" then some .pending
  else if s = "SENDING" then some .sending
  else if s = "SENT" then some .sent
  else if s = "FAILED" then some .failed
  else none

/-- The `ChatMessage` record (fields as used by `MessageQueue.swift`:
`id`, `roomId`, `uid`, `displayName`, `photoURL`, `text`, `type`,
`timestamp`, `edited`, `editedAt`, `metadata`). -/
structure ChatMessage where
  id : String
  roomId : String
  uid : String
  displayName : String
  photoURL : Option String
  text : String
  type : String
  timestamp : Int
  edited : Option Bool
  editedAt : Option Int
  metadata : Option (List (String × String))
deriving DecidableEq

/-- Swift `struct QueuedMessage`. `createdAt` is a `Date`, modelled as a
natural-number timestamp in seconds. -/
structure QueuedMessage where
  localId : String
  message : ChatMessage
  status : MessageStatus
  retryCount : Nat
  createdAt : Nat
deriving DecidableEq

/-- A value stored in a `[String: Any]` dictionary persisted to
`UserDefaults` (only strings and numbers are ever stored). -/
inductive DictVal where
  | str (s : String)
  | nat (n : Nat)
deriving DecidableEq

/-- A persisted `[String: Any]` dictionary: an association list. -/
abbrev Dict := List (String × DictVal)

/-- Dictionary lookup (`dict["k"]`). -/
def dget (d : Dict) (k : String) : Option DictVal :=
  (d.find? (fun p => p.1 = k)).map (·.2)

/-- Swift `as? String` cast of a dictionary value. -/
def DictVal.asStr : DictVal → Option String
  | .str s => some s
  | .nat _ => none

/-- Swift `as? Int` / `as? TimeInterval` cast of a dictionary value. -/
def DictVal.asNat : DictVal → Option Nat
  | .str _ => none
  | .nat n => some n

/-- `QueuedMessage.toDictionary()` from `MessageQueue.swift`. -/
def QueuedMessage.toDictionary (q : QueuedMessage) : Dict :=
  [ ("localId", .str q.localId),
    ("messageId", .str q.message.id),
    ("roomId", .str q.message.roomId),
    ("text", .str q.message.text),
    ("type", .str q.message.type),
    ("status", .str q.status.rawValue),
    ("retryCount", .nat q.retryCount),
    ("createdAt", .nat q.createdAt) ]

/-! ## The queue dictionary

Swift keeps `queue : [String: QueuedMessage]` keyed by `localId`.  We model
it as a list of entries with the dictionary operations below; a queue built
only with these operations has pairwise-distinct `localId` keys. -/

/-- `queue[localId] = qm` (insert or replace by key; a Swift dictionary
holds at most one entry per key, so replacing the first match is
exhaustive). -/
def qset : List QueuedMessage → QueuedMessage → List QueuedMessage
  | [], qm => [qm]
  | a :: t, qm => if a.localId = qm.localId then qm :: t else a :: qset t qm

/-- `queue[localId]` lookup. -/
def qget (q : List QueuedMessage) (localId : String) : Option QueuedMessage :=
  q.find? (fun e => e.localId = localId)

/-- `queue.removeValue(forKey: localId)`. -/
def qremove (q : List QueuedMessage) (localId : String) : List QueuedMessage :=
  q.filter (fun e => ¬ e.localId = localId)

/-- The keys of the queue dictionary. -/
def qkeys (q : List QueuedMessage) : List String := q.map (·.localId)

/-! ## Persistence (`saveQueue` / `loadQueue`) -/

/-- `MessageQueue.saveQueue`: the `UserDefaults` blob written for a queue. -/
def saveQueue (q : List QueuedMessage) : List Dict :=
  q.map QueuedMessage.toDictionary

/-- The guard-let chain in `MessageQueue.loadQueue` that reconstructs one
`QueuedMessage` from a persisted dictionary.  The message is rebuilt
"simplified — missing some fields": `uid` and `displayName` are blanked,
`photoURL` is `nil` and the timestamp is taken from the current clock
(`Date()`, in milliseconds). -/
def parseEntry (now : Nat) (d : Dict) : Option QueuedMessage := do
  let localId ← (← dget d "localId").asStr
  let messageId ← (← dget d "messageId").asStr
  let roomId ← (← dget d "roomId").asStr
  let text ← (← dget d "text").asStr
  let type ← (← dget d "type").asStr
  let statusString ← (← dget d "status").asStr
  let status ← MessageStatus.fromRaw statusString
  let retryCount ← (← dget d "retryCount").asNat
  let createdAtTimestamp ← (← dget d "createdAt").asNat
  let message : ChatMessage :=
    { id := messageId, roomId := roomId, uid := "", displayName := "",
      photoURL := none, text := text, type := type,
      timestamp := (now * 1000 : Nat), edited := none, editedAt := none,
      metadata := none }
  pure { localId := localId, message := message, status := status,
         retryCount := retryCount, createdAt := createdAtTimestamp }

/-- `MessageQueue.loadQueue`: parse every persisted dictionary, skipping
(`continue`) the ones that fail the guard, inserting each parsed entry into
the queue dictionary. -/
def loadQueueFrom (store : List Dict) (now : Nat) : List QueuedMessage :=
  store.foldl
    (fun q d => match parseEntry now d with
      | some qm => qset q qm
      | none => q)
    []

/-! ## MessageQueue operations -/

/-- `private let maxRetries = 5`. -/
def maxRetries : Nat := 5

/-- `private let retryDelays: [TimeInterval] = [1, 2, 4, 8, 16]`. -/
def retryDelays : List Nat := [1, 2, 4, 8, 16]

/-- State of a `MessageQueue` instance together with its durable blob:
the in-memory dictionary, the `UserDefaults` store, whether
`startProcessing` has installed the Firebase database reference, and a
clock (seconds). -/
structure QState where
  queue : List QueuedMessage
  store : List Dict
  database : Bool
  now : Nat
deriving DecidableEq

/-- Observable effects of the queue: the keyed remote write started by
`sendToFirebase` (`messageRef = messagesRef.child(message.id)`), the
`onMessageSent` / `onMessageFailed` callbacks, and a retry timer scheduled
by `DispatchQueue.main.asyncAfter`. -/
inductive QEvent where
  | attemptWrite (localId : String) (key : String) (roomId : String)
  | messageSent (localId : String) (messageId : String)
  | messageFailed (localId : String) (reason : Option String)
  | retryScheduled (localId : String) (delay : Nat)
deriving DecidableEq

/-- One iteration of the `for var queuedMessage in pendingMessages` loop of
`MessageQueue.processQueue`. -/
def drainBody (acc : QState × List QEvent) (qm : QueuedMessage) :
    QState × List QEvent :=
  let s := acc.1
  let evs := acc.2
  if maxRetries ≤ qm.retryCount then
    let q := qset s.queue { qm with status := .failed }
    ({ s with queue := q, store := saveQueue q },
     evs ++ [.messageFailed qm.localId (some "Max retries exceeded")])
  else
    let q := qset s.queue { qm with status := .sending }
    ({ s with queue := q, store := saveQueue q },
     evs ++ [.attemptWrite qm.localId qm.message.id qm.message.roomId])

/-- `MessageQueue.processQueue`: no-op without a database reference, else
snapshot the entries with status `.pending` or `.failed` and run the loop.
The `isProcessing` guard makes a drain pass atomic, which the step
semantics models by treating the whole pass as one step. -/
def drainStep (st : QState) : QState × List QEvent :=
  if st.database then
    (st.queue.filter
      (fun e => e.status = MessageStatus.pending ∨ e.status = .failed)).foldl
      drainBody (st, [])
  else (st, [])

/-- `MessageQueue.handleSendSuccess`: remove the entry, persist, notify. -/
def handleSendSuccessStep (st : QState) (localId messageId : String) :
    QState × List QEvent :=
  let q := qremove st.queue localId
  ({ st with queue := q, store := saveQueue q },
   [.messageSent localId messageId])

/-- `MessageQueue.handleSendFailure`: bump the retry counter; at the budget
mark `FAILED` and notify, otherwise go back to `PENDING` and schedule a
retry after `retryDelays[min(retryCount - 1, retryDelays.count - 1)]`. -/
def handleSendFailureStep (st : QState) (localId : String) (err : String) :
    QState × List QEvent :=
  match qget st.queue localId with
  | none => (st, [])
  | some qm0 =>
    let qm := { qm0 with retryCount := qm0.retryCount + 1 }
    if maxRetries ≤ qm.retryCount then
      let q := qset st.queue { qm with status := .failed }
      ({ st with queue := q, store := saveQueue q },
       [.messageFailed localId (some err)])
    else
      let q := qset st.queue { qm with status := .pending }
      let delay := retryDelays.getD
        (min (qm.retryCount - 1) (retryDelays.length - 1)) 0
      ({ st with queue := q, store := saveQueue q },
       [.retryScheduled localId delay])

/-- `MessageQueue.retryFailed`: reset every `FAILED` entry to `PENDING`
with retry count 0, persist, and drain. -/
def retryFailedStep (st : QState) : QState × List QEvent :=
  let q := st.queue.map (fun e =>
    if e.status = MessageStatus.failed then
      { e with status := .pending, retryCount := 0 }
    else e)
  drainStep { st with queue := q, store := saveQueue q }

/-- `MessageQueue.clearSentMessages`. -/
def clearSentStep (st : QState) : QState × List QEvent :=
  let q := st.queue.filter (fun e => ¬ e.status = MessageStatus.sent)
  ({ st with queue := q, store := saveQueue q }, [])

/-- `MessageQueue.enqueue`: build the entry with status `.pending` and
retry count 0, insert, persist, then try to send immediately
(`processQueue`); the completion always resolves with success. -/
def enqueueStep (st : QState) (m : ChatMessage) (localId : String) :
    QState × List QEvent :=
  let qm : QueuedMessage :=
    { localId := localId, message := m, status := .pending,
      retryCount := 0, createdAt := st.now }
  let q := qset st.queue qm
  drainStep { st with queue := q, store := saveQueue q }

/-- The operations that can act on a `MessageQueue` over its lifetime.
`sendSuccess` / `sendFailure` are the asynchronous completions of a
previously started remote write; `restart` models a process restart
(`init()` runs `loadQueue`, the database reference is gone until
`startProcessing`); `tick` advances the clock. -/
inductive QOp where
  | enqueue (m : ChatMessage) (localId : String)
  | startProcessing
  | drain
  | sendSuccess (localId messageId : String)
  | sendFailure (localId : String) (err : String)
  | retryFailedOp
  | clearSent
  | restart
  | tick (d : Nat)
deriving DecidableEq

/-- Apply one operation. -/
def applyOp (st : QState) : QOp → QState × List QEvent
  | .enqueue m localId => enqueueStep st m localId
  | .startProcessing => drainStep { st with database := true }
  | .drain => drainStep st
  | .sendSuccess localId messageId => handleSendSuccessStep st localId messageId
  | .sendFailure localId err => handleSendFailureStep st localId err
  | .retryFailedOp => retryFailedStep st
  | .clearSent => clearSentStep st
  | .restart => ({ st with queue := loadQueueFrom st.store st.now,
                           database := false }, [])
  | .tick d => ({ st with now := st.now + d }, [])

/-- Run a sequence of operations, accumulating the emitted events. -/
def runOps (st : QState) : List QOp → QState × List QEvent
  | [] => (st, [])
  | op :: ops =>
    let r := applyOp st op
    let r' := runOps r.1 ops
    (r'.1, r.2 ++ r'.2)

/-- A fresh process with an empty outbox and an empty durable store. -/
def initState : QState :=
  { queue := [], store := [], database := false, now := 0 }

/-! ## Idempotency key generation

The generator itself lives in the native `ChatService.sendMessage`, which is
not part of the source tree; it is modelled from the spec below. -/

/-- Decimal rendering of a natural number as characters. -/
def natRepr (n : Nat) : List Char :=
  if n = 0 then ['0'] else ((Nat.digits 10 n).map Nat.digitChar).reverse

/-- Modelled from the spec: the Idempotency Key Generator of the missing
native `ChatService.sendMessage` — "client-generated IDs:
`{userId}_{timestamp}_{random}`", a pure function of the sender identifier,
the creation timestamp and a random nonce, chosen once at enqueue time. -/
def generateMessageId (uid : String) (timestamp nonce : Nat) : String :=
  uid ++ "_" ++ String.mk (natRepr timestamp) ++ "_" ++ String.mk (natRepr nonce)

/-! ## ChatModule event surface

The React-Native bridge (`ChatModule.swift`) is not part of the source tree;
its event forwarding is modelled from the spec. -/

/-- Events emitted across the bridge to the JS layer. -/
inductive ModEvent where
  | messageAdded (localId : String) (message : ChatMessage)
  | messageAck (localId : String) (messageId : String)
  | messageFailedEv (localId : String) (reason : Option String)
deriving DecidableEq

/-- Modelled from the spec: the missing `ChatModule.setupEventListeners`
wires the queue callbacks to bridge events — `onMessageSent` becomes
`message_ack{localId, messageId}` and `onMessageFailed` becomes
`message_failed{localId, reason}`. -/
def moduleEvents (evs : List QEvent) : List ModEvent :=
  evs.filterMap (fun e =>
    match e with
    | .messageSent lid mid => some (.messageAck lid mid)
    | .messageFailed lid r => some (.messageFailedEv lid r)
    | _ => none)

/-- Modelled from the spec: the missing `ChatModule.sendMessage` /
`ChatService.sendMessage` entry point — constructs the `Message`
(assigning the idempotency key from the sender identifier, the creation
timestamp and a nonce, and the sender-side timestamp), emits the optimistic
`message_added{localId}` event, and enqueues the message into the
`MessageQueue`; it resolves with the message (local persistence cannot
fail here, so the result is always a success). -/
def chatModuleSendMessage (st : QState)
    (roomId text mtype uid displayName localId : String) (nonce : Nat) :
    (QState × List QEvent) × List ModEvent × Except String ChatMessage :=
  let key := generateMessageId uid st.now nonce
  let m : ChatMessage :=
    { id := key, roomId := roomId, uid := uid, displayName := displayName,
      photoURL := none, text := text, type := mtype,
      timestamp := (st.now * 1000 : Nat), edited := none, editedAt := none,
      metadata := none }
  (applyOp st (.enqueue m localId), [.messageAdded localId m], .ok m)

/-! ## Inbox pagination

`ChatService.getMessages` is not part of the source tree; modelled from the
spec. -/

/-- The `{messages, hasMore, nextCursor}` result of `getMessages`. -/
structure MessagesResponse where
  messages : List ChatMessage
  hasMore : Bool
  nextCursor : Option String
deriving DecidableEq

/-- Modelled from the spec: the missing `ChatService.getMessages` — given
the room's cached messages ordered newest-first, return up to `limit`
messages strictly older than the `before` cursor message (when supplied),
`hasMore` true iff exactly `limit` results were returned, and `nextCursor`
the identifier of the oldest returned message. -/
def getMessagesFromCache (roomCache : List ChatMessage) (limit : Nat)
    (before : Option String) : MessagesResponse :=
  let older :=
    match before with
    | none => roomCache
    | some b => (roomCache.dropWhile (fun m : ChatMessage => m.id != b)).drop 1
  let msgs := older.take limit
  { messages := msgs,
    hasMore := msgs.length = limit,
    nextCursor := msgs.getLast?.map (·.id) }

/-! ## The JS SDK (`src/src/chat/index.ts`) -/

/-- One listener registered on the `ChatEventEmitter` by `subscribeRoom`:
a handle identity, the event name it listens for, the `roomId` captured by
the closure, and the identity of the subscriber's callback. -/
structure EmitterListener where
  lid : Nat
  eventType : String
  roomId : String
  cb : Nat
deriving DecidableEq

/-- The six event names `subscribeRoom` registers listeners for. -/
def chatEventTypes : List String :=
  ["message_added", "message_ack", "message_failed", "sync_state",
   "room_updated", "typing"]

/-- State of the `ChatSDKImpl` subscription bookkeeping: the emitter's
registered listeners, the `subscriptions` map (roomId ↦ listener handles of
the most recent `subscribeRoom` call for that room), the log of native
`subscribeToRoom` / `unsubscribeFromRoom` requests, and a counter for fresh
listener handles. -/
structure SDKSubsState where
  emitter : List EmitterListener
  subscriptions : List (String × List Nat)
  nativeSubs : List String
  nativeUnsubs : List String
  nextId : Nat
deriving DecidableEq

/-- Map update `subscriptions.set(roomId, listeners)` (a JS `Map` holds at
most one entry per key). -/
def mapSet : List (String × List Nat) → String → List Nat →
    List (String × List Nat)
  | [], k, v => [(k, v)]
  | p :: t, k, v => if p.1 = k then (k, v) :: t else p :: mapSet t k v

/-- Map lookup `subscriptions.get(roomId)`. -/
def mapGet (m : List (String × List Nat)) (k : String) : Option (List Nat) :=
  (m.find? (fun p => p.1 = k)).map (·.2)

/-- Map removal `subscriptions.delete(roomId)`. -/
def mapRemove (m : List (String × List Nat)) (k : String) :
    List (String × List Nat) :=
  m.filter (fun p => ¬ p.1 = k)

/-- A fresh `ChatSDKImpl` with no subscriptions. -/
def initSDK : SDKSubsState :=
  { emitter := [], subscriptions := [], nativeSubs := [], nativeUnsubs := [],
    nextId := 0 }

/-- `ChatSDKImpl.subscribeRoom` (from `src/src/chat/index.ts`): request the
native subscription, register the six emitter listeners for the callback,
and **set** (replace) the room's entry in the `subscriptions` map with this
call's listener handles. -/
def subscribeRoomStep (st : SDKSubsState) (roomId : String) (cb : Nat) :
    SDKSubsState :=
  let newListeners := (List.range chatEventTypes.length).map (fun i =>
    { lid := st.nextId + i, eventType := chatEventTypes.getD i "",
      roomId := roomId, cb := cb : EmitterListener })
  { emitter := st.emitter ++ newListeners,
    subscriptions := mapSet st.subscriptions roomId (newListeners.map (·.lid)),
    nativeSubs := st.nativeSubs ++ [roomId],
    nativeUnsubs := st.nativeUnsubs,
    nextId := st.nextId + chatEventTypes.length }

/-- The unsubscribe closure returned by `subscribeRoom`.  It captures only
`roomId`: it removes whatever listener set the `subscriptions` map
**currently** holds for the room, deletes the map entry, and requests the
native `unsubscribeFromRoom`. -/
def unsubscribeRoomStep (st : SDKSubsState) (roomId : String) : SDKSubsState :=
  let st1 :=
    match mapGet st.subscriptions roomId with
    | some ids =>
      { st with
        emitter := st.emitter.filter (fun l => ¬ ids.contains l.lid),
        subscriptions := mapRemove st.subscriptions roomId }
    | none => st
  { st1 with nativeUnsubs := st1.nativeUnsubs ++ [roomId] }

/-- Fan-out of a `message_added` event for a message in room `msgRoomId`:
the callbacks invoked are those of the registered `message_added` listeners
whose captured `roomId` matches the message's room (the listener body
filters on `data.message?.roomId === roomId`). -/
def fanoutMessageAdded (st : SDKSubsState) (msgRoomId : String) : List Nat :=
  (st.emitter.filter (fun l =>
    l.eventType = "message_added" ∧ l.roomId = msgRoomId)).map (·.cb)

/-! ## The JS SDK initialization guard (`src/src/chat/index.ts`) -/

/-- The public `ChatSDK` operations other than `init`. -/
inductive SDKOp where
  | getRooms
  | getRoom (roomId : String)
  | sendMessage (roomId : String)
  | subscribeRoomOp (roomId : String)
  | getMessagesOp (roomId : String)
  | markAsRead (roomId messageId : String)
  | createRoom
  | joinRoom (roomId : String)
  | leaveRoom (roomId : String)
deriving DecidableEq

/-- The message of the error thrown by `ChatSDKImpl.ensureInitialized`. -/
def notInitializedMessage : String :=
  "ChatSDK is not initialized. Call chat.init() first."

/-- `ChatSDKImpl.ensureInitialized`. -/
def ensureInitialized (initialized : Bool) : Except String Unit :=
  if initialized then .ok () else .error notInitializedMessage

/-- Run one public SDK operation: every one of the nine methods first calls
`ensureInitialized` and only then invokes the underlying native module
(the second component lists the native calls made). -/
def runSDKOp (initialized : Bool) (op : SDKOp) :
    Except String Unit × List SDKOp :=
  match ensureInitialized initialized with
  | .error e => (.error e, [])
  | .ok _ => (.ok (), [op])

/-! ## Derived notions used by the theorems -/

/-- The queue dictionary has pairwise-distinct keys. -/
def NodupKeys (q : List QueuedMessage) : Prop := (qkeys q).Nodup

/-- Well-formedness of a queue state: distinct keys, and the durable store
is the serialization of the in-memory queue. -/
def QInv (st : QState) : Prop :=
  NodupKeys st.queue ∧ st.store = saveQueue st.queue

/-- The entry `loadQueue` reconstructs from the persisted dictionary of
`e`: same `localId`, message identifier, room, text, type, status, retry
count and creation timestamp; sender fields blanked and the message
timestamp taken from the current clock. -/
def reloadEntry (e : QueuedMessage) (now : Nat) : QueuedMessage :=
  { localId := e.localId,
    message := { id := e.message.id, roomId := e.message.roomId, uid := "",
                 displayName := "", photoURL := none, text := e.message.text,
                 type := e.message.type, timestamp := (now * 1000 : Nat),
                 edited := none, editedAt := none, metadata := none },
    status := e.status, retryCount := e.retryCount,
    createdAt := e.createdAt }

/-- The event one iteration of the `processQueue` loop emits for the
snapshot entry `qm`. -/
def drainEventOf (qm : QueuedMessage) : QEvent :=
  if maxRetries ≤ qm.retryCount then
    .messageFailed qm.localId (some "Max retries exceeded")
  else
    .attemptWrite qm.localId qm.message.id qm.message.roomId

/-- The backoff delays scheduled in an event trace, in order. -/
def scheduledDelays (evs : List QEvent) : List Nat :=
  evs.filterMap (fun e =>
    match e with
    | .retryScheduled _ d => some d
    | _ => none)

/-- The remote-write attempts in an event trace, as
`(localId, idempotency key)` pairs in order. -/
def attemptsList (evs : List QEvent) : List (String × String) :=
  evs.filterMap (fun e =>
    match e with
    | .attemptWrite l k _ => some (l, k)
    | _ => none)

/-- The remote-write attempts for one particular entry. -/
def attemptsFor (lid : String) (evs : List QEvent) : List String :=
  evs.filterMap (fun e =>
    match e with
    | .attemptWrite l k _ => if l = lid then some k else none
    | _ => none)

/-- Does this operation enqueue a (new) entry at the given local id? -/
def enqueuesAt (op : QOp) (lid : String) : Bool :=
  match op with
  | .enqueue _ l => l = lid
  | _ => false

/-- Is this operation a delivery-completion callback for the given local
id? -/
def callbackFor (op : QOp) (lid : String) : Bool :=
  match op with
  | .sendSuccess l _ => l = lid
  | .sendFailure l _ => l = lid
  | _ => false

/-- A concrete message used by the counterexamples and witnesses. -/
def exMessage : ChatMessage :=
  { id := "m1", roomId := "r1", uid := "u1", displayName := "User One",
    photoURL := none, text := "hi", type := "text", timestamp := 0,
    edited := none, editedAt := none, metadata := none }

/-- A second concrete message. -/
def exMessage2 : ChatMessage :=
  { id := "m2", roomId := "r1", uid := "u1", displayName := "User One",
    photoURL := none, text := "again", type := "text", timestamp := 0,
    edited := none, editedAt := none, metadata := none }

/-- The operation sequence in which one enqueued entry suffers five
consecutive transient delivery failures: the enqueue, the start of
processing (which makes the first, immediate attempt), and then four
scheduled retry drains, every attempt failing. -/
def fiveFailureOps (m : ChatMessage) (lid : String) (err : String) :
    List QOp :=
  [.enqueue m lid, .startProcessing,
   .sendFailure lid err, .drain,
   .sendFailure lid err, .drain,
   .sendFailure lid err, .drain,
   .sendFailure lid err, .drain,
   .sendFailure lid err]

/-- Operation sequence for the drain-timing counterexample: an entry is
enqueued and attempted, the attempt fails (scheduling a 1-second backoff),
and — with no time having passed — a second message is enqueued, which
triggers another drain pass. -/
def earlyDrainOps : List QOp :=
  [.enqueue exMessage "L1", .startProcessing, .sendFailure "L1" "network error"]

/-- A concrete pending entry (used by witnesses). -/
def exEntry1 : QueuedMessage :=
  { localId := "L1", message := exMessage, status := .pending,
    retryCount := 0, createdAt := 0 }

/-- A concrete in-flight (`SENDING`) entry (used by witnesses). -/
def exEntry2 : QueuedMessage :=
  { localId := "L2", message := exMessage2, status := .sending,
    retryCount := 1, createdAt := 0 }

/-- A concrete permanently failed entry (used by witnesses). -/
def exEntry3 : QueuedMessage :=
  { localId := "L3", message := { exMessage with id := "m3" },
    status := .failed, retryCount := 5, createdAt := 0 }

/-- A concrete well-formed queue state holding the three entries above,
with a database reference installed (used by witnesses). -/
def exQState : QState :=
  { queue := [exEntry1, exEntry2, exEntry3],
    store := saveQueue [exEntry1, exEntry2, exEntry3],
    database := true, now := 0 }

/-! # Theorems -/

/-! ## Queue dictionary lemmas -/

theorem qget_qset_self (q : List QueuedMessage) (qm : QueuedMessage) :
    qget (qset q qm) qm.localId = some qm := by
  induction q with
  | nil => simp [qset, qget]
  | cons a t ih =>
    by_cases ha : a.localId = qm.localId
    · simp [qset, qget, ha]
    · simpa [qset, qget, ha] using ih

theorem qget_qset_ne (q : List QueuedMessage) (qm : QueuedMessage)
    (lid : String) (h : lid ≠ qm.localId) :
    qget (qset q qm) lid = qget q lid := by
  have hqm : ¬ qm.localId = lid := fun hc => h hc.symm
  induction q with
  | nil => simp [qset, qget, hqm]
  | cons a t ih =>
    by_cases ha : a.localId = qm.localId
    · have hal : ¬ a.localId = lid := fun hc => hqm (ha ▸ hc)
      simp [qset, qget, ha, hal, hqm]
    · by_cases hal : a.localId = lid
      · simp [qset, qget, ha, hal, h]
      · simpa [qset, qget, ha, hal] using ih

theorem mem_qset_self (q : List QueuedMessage) (qm : QueuedMessage) :
    qm ∈ qset q qm := by
  induction q with
  | nil => simp [qset]
  | cons a t ih =>
    by_cases ha : a.localId = qm.localId
    · simp [qset, ha]
    · simp [qset, ha, ih]

theorem mem_qset_of_ne {q : List QueuedMessage} {e : QueuedMessage}
    (qm : QueuedMessage) (he : e ∈ q) (hne : e.localId ≠ qm.localId) :
    e ∈ qset q qm := by
  induction q with
  | nil => simp at he
  | cons a t ih =>
    by_cases ha : a.localId = qm.localId
    · rcases List.mem_cons.mp he with rfl | ht
      · exact absurd ha hne
      · simp [qset, ha, ht]
    · rcases List.mem_cons.mp he with rfl | ht
      · simp [qset, ha]
      · simp [qset, ha, ih ht]

theorem mem_qset_elim {q : List QueuedMessage} {qm e' : QueuedMessage}
    (h : e' ∈ qset q qm) : e' = qm ∨ e' ∈ q := by
  induction q with
  | nil => simpa [qset] using h
  | cons a t ih =>
    by_cases ha : a.localId = qm.localId
    · simp only [qset, ha, if_pos] at h
      rcases List.mem_cons.mp h with rfl | ht
      · exact Or.inl rfl
      · exact Or.inr (List.mem_cons.mpr (Or.inr ht))
    · simp only [qset, ha, if_neg, not_false_iff] at h
      rcases List.mem_cons.mp h with rfl | ht
      · exact Or.inr (List.mem_cons.mpr (Or.inl rfl))
      · rcases ih ht with h' | h'
        · exact Or.inl h'
        · exact Or.inr (List.mem_cons.mpr (Or.inr h'))

theorem mem_qkeys_qset {q : List QueuedMessage} {qm : QueuedMessage}
    {k : String} (h : k ∈ qkeys (qset q qm)) :
    k ∈ qkeys q ∨ k = qm.localId := by
  rcases List.mem_map.mp h with ⟨e, he, rfl⟩
  rcases mem_qset_elim he with rfl | he'
  · exact Or.inr rfl
  · exact Or.inl (List.mem_map.mpr ⟨e, he', rfl⟩)

theorem nodupKeys_qset {q : List QueuedMessage} (qm : QueuedMessage)
    (h : NodupKeys q) : NodupKeys (qset q qm) := by
  induction q with
  | nil => simp [qset, NodupKeys, qkeys]
  | cons a t ih =>
    unfold NodupKeys qkeys at h
    simp only [List.map_cons, List.nodup_cons] at h
    by_cases ha : a.localId = qm.localId
    · unfold NodupKeys qkeys
      simp only [qset, ha, if_pos, List.map_cons, List.nodup_cons]
      exact ⟨by rw [← ha]; exact h.1, h.2⟩
    · unfold NodupKeys qkeys
      simp only [qset, ha, if_neg, not_false_iff, List.map_cons,
        List.nodup_cons]
      refine ⟨?_, ih h.2⟩
      intro hc
      rcases mem_qkeys_qset hc with hc' | hc'
      · exact h.1 hc'
      · exact ha hc'

theorem nodupKeys_filter {q : List QueuedMessage} (p : QueuedMessage → Bool)
    (h : NodupKeys q) : NodupKeys (q.filter p) :=
  List.Sublist.nodup (List.Sublist.map _ (List.filter_sublist q)) h

theorem nodupKeys_key_inj {q : List QueuedMessage} (h : NodupKeys q)
    {a b : QueuedMessage} (ha : a ∈ q) (hb : b ∈ q)
    (hk : a.localId = b.localId) : a = b :=
  List.inj_on_of_nodup_map h ha hb hk

theorem qget_eq_some_iff_aux {q : List QueuedMessage} {lid : String}
    {qm : QueuedMessage} (h : qget q lid = some qm) :
    qm ∈ q ∧ qm.localId = lid := by
  refine ⟨List.mem_of_find?_eq_some h, ?_⟩
  have := List.find?_some h
  simpa using this

theorem qget_of_mem {q : List QueuedMessage} {e : QueuedMessage}
    (hnd : NodupKeys q) (he : e ∈ q) : qget q e.localId = some e := by
  unfold qget
  induction q with
  | nil => simp at he
  | cons a t ih =>
    rcases List.mem_cons.mp he with rfl | ht
    · simp
    · by_cases ha : a.localId = e.localId
      · exfalso
        have : NodupKeys (a :: t) := hnd
        unfold NodupKeys qkeys at this
        simp only [List.map_cons, List.nodup_cons] at this
        exact this.1 (ha ▸ List.mem_map.mpr ⟨e, ht, rfl⟩)
      · have hndt : NodupKeys t := by
          unfold NodupKeys qkeys at hnd ⊢
          simp only [List.map_cons, List.nodup_cons] at hnd
          exact hnd.2
        simp [ha, ih hndt ht]

/-! ## C8 -/

/-- C8 counterexample: two listeners (callbacks 1 and 2) subscribe to room
"r1" in turn; the unsubscribe handle returned to the first listener is then
invoked.  Afterwards a `message_added` fan-out for "r1" reaches callback 1
(whose handlers were orphaned, not removed) and does **not** reach
callback 2 — so the second listener does not keep receiving the room's
events after the first listener unsubscribes, and the first unsubscribe
already issued a native `unsubscribeFromRoom` request even though another
listener was still subscribed.  This refutes the claim. -/
theorem C8_counterexample :
    fanoutMessageAdded
        (unsubscribeRoomStep
          (subscribeRoomStep (subscribeRoomStep initSDK "r1" 1) "r1" 2) "r1")
        "r1" = [1] ∧
    (2 : Nat) ∉
      fanoutMessageAdded
        (unsubscribeRoomStep
          (subscribeRoomStep (subscribeRoomStep initSDK "r1" 1) "r1" 2) "r1")
        "r1" ∧
    (subscribeRoomStep (subscribeRoomStep initSDK "r1" 1) "r1" 2).nativeSubs
      = ["r1", "r1"] ∧
    SDKSubsState.nativeUnsubs
      (unsubscribeRoomStep
        (subscribeRoomStep (subscribeRoomStep initSDK "r1" 1) "r1" 2) "r1")
      = ["r1"] := by
  decide

/-- C8 (amended): room subscriptions are **not** reference-counted.  Every
`subscribeRoom` call issues its own native `subscribeToRoom` request and
replaces the room's tracked listener set in the `subscriptions` map, and
every unsubscribe handle removes whatever listener set is currently
tracked for its room and issues a native `unsubscribeFromRoom` request.
Consequently, after a second listener subscribes to the same room, the
first handle's unsubscribe removes the **second** listener's handlers
(the second listener stops receiving `message_added` fan-out) while the
first listener's orphaned handlers remain registered and keep
receiving. -/
theorem C8_amended_subscriptions_not_refcounted (r : String) (c1 c2 : Nat) :
    (subscribeRoomStep (subscribeRoomStep initSDK r c1) r c2).nativeSubs
      = [r, r] ∧
    fanoutMessageAdded
        (unsubscribeRoomStep
          (subscribeRoomStep (subscribeRoomStep initSDK r c1) r c2) r) r
      = [c1] ∧
    SDKSubsState.nativeUnsubs
      (unsubscribeRoomStep
        (subscribeRoomStep (subscribeRoomStep initSDK r c1) r c2) r)
      = [r] := by
  refine ⟨rfl, ?_, ?_⟩ <;>
    simp [subscribeRoomStep, unsubscribeRoomStep, fanoutMessageAdded,
      initSDK, mapSet, mapGet, mapRemove, chatEventTypes, List.range_succ]

/-! ## C2 -/

/-- C2 counterexample: a concrete entry suffering five consecutive
transient failures.  The delays actually scheduled are 1, 2, 4, 8 seconds
— four delays, not the claimed five-delay sequence 1, 2, 4, 8, 16; in
particular no 16-second backoff is ever scheduled (the fifth failure
immediately marks the entry `FAILED`). -/
theorem C2_counterexample :
    scheduledDelays
        (runOps initState (fiveFailureOps exMessage "L" "network error")).2
      = [1, 2, 4, 8] ∧
    scheduledDelays
        (runOps initState (fiveFailureOps exMessage "L" "network error")).2
      ≠ [1, 2, 4, 8, 16] ∧
    (16 : Nat) ∉
      scheduledDelays
        (runOps initState (fiveFailureOps exMessage "L" "network error")).2 := by
  decide

set_option maxHeartbeats 2000000 in
/-- C2 (amended): for any single entry that suffers five consecutive
transient delivery failures, the first attempt is made immediately (no
delay is scheduled before it) and the delay scheduled after failed attempt
n (n = 1..4), i.e. before attempt n+1, is 2^(n-1) seconds — the sequence
1, 2, 4, 8; the 16-second entry of `retryDelays` is never used.  After the
5th failed attempt the entry's status is `FAILED` with retry count 5, and
no sixth automatic attempt is scheduled: no backoff timer is set by the
fifth failure and a further drain pass makes no delivery attempt for the
entry. -/
theorem C2_amended_backoff_sequence (m : ChatMessage) (lid err : String) :
    scheduledDelays (runOps initState (fiveFailureOps m lid err)).2
      = [1, 2, 4, 8] ∧
    attemptsFor lid (runOps initState (fiveFailureOps m lid err)).2
      = [m.id, m.id, m.id, m.id, m.id] ∧
    qget (runOps initState (fiveFailureOps m lid err)).1.queue lid
      = some { localId := lid, message := m, status := .failed,
               retryCount := 5, createdAt := 0 } ∧
    attemptsFor lid
        (drainStep (runOps initState (fiveFailureOps m lid err)).1).2 = [] := by
  refine ⟨?_, ?_, ?_, ?_⟩ <;>
    simp [fiveFailureOps, runOps, applyOp, enqueueStep, drainStep, drainBody,
      handleSendFailureStep, handleSendSuccessStep, qset, qget, saveQueue,
      scheduledDelays, attemptsFor, maxRetries, retryDelays, initState]

/-! ## C9 -/

/-- C9: every public ChatSDK operation other than `init` (getRooms,
getRoom, sendMessage, subscribeRoom, getMessages, markAsRead, createRoom,
joinRoom, leaveRoom), invoked before a successful `init`, throws the
"not initialized" error and does not invoke the underlying native
module. -/
theorem C9_uninitialized_ops_throw_without_native_call (op : SDKOp) :
    runSDKOp false op =
      (Except.error notInitializedMessage, ([] : List SDKOp)) := rfl

/-! ## Drain-pass lemmas -/

theorem drainBody_eq (acc : QState × List QEvent) (qm : QueuedMessage) :
    drainBody acc qm =
      (let q := qset acc.1.queue
        (if maxRetries ≤ qm.retryCount then { qm with status := .failed }
         else { qm with status := .sending })
       ({ acc.1 with queue := q, store := saveQueue q },
        acc.2 ++ [drainEventOf qm])) := by
  unfold drainBody drainEventOf
  by_cases h : maxRetries ≤ qm.retryCount <;> simp [h]

theorem drainFold_events (l : List QueuedMessage) (s : QState)
    (evs : List QEvent) :
    (l.foldl drainBody (s, evs)).2 = evs ++ l.map drainEventOf := by
  induction l generalizing s evs with
  | nil => simp
  | cons a t ih =>
    rw [List.foldl_cons, drainBody_eq]
    simp only [List.map_cons]
    rw [ih]
    simp

theorem drainFold_queue_shape (l : List QueuedMessage) (s : QState)
    (evs : List QEvent) :
    ∀ e' ∈ (l.foldl drainBody (s, evs)).1.queue,
      e' ∈ s.queue ∨
        ∃ qm ∈ l, e' = { qm with status := .failed } ∨
          e' = { qm with status := .sending } := by
  induction l generalizing s evs with
  | nil => intro e' h; exact Or.inl h
  | cons a t ih =>
    intro e' h
    rw [List.foldl_cons, drainBody_eq] at h
    rcases ih _ _ _ h with h' | ⟨qm, hqm, h'⟩
    · simp only at h'
      rcases mem_qset_elim h' with h'' | h''
      · by_cases ha : maxRetries ≤ a.retryCount
        · exact Or.inr ⟨a, List.mem_cons_self a t, Or.inl (by simpa [ha] using h'')⟩
        · exact Or.inr ⟨a, List.mem_cons_self a t, Or.inr (by simpa [ha] using h'')⟩
      · exact Or.inl h''
    · exact Or.inr ⟨qm, List.mem_cons.mpr (Or.inr hqm), h'⟩

theorem drainFold_qget_untouched (l : List QueuedMessage) (s : QState)
    (evs : List QEvent) (lid : String)
    (h : ∀ qm ∈ l, qm.localId ≠ lid) :
    qget (l.foldl drainBody (s, evs)).1.queue lid = qget s.queue lid := by
  induction l generalizing s evs with
  | nil => rfl
  | cons a t ih =>
    rw [List.foldl_cons, drainBody_eq]
    rw [ih _ _ (fun qm hqm => h qm (List.mem_cons.mpr (Or.inr hqm)))]
    have hne : lid ≠ a.localId :=
      fun hc => h a (List.mem_cons_self a t) hc.symm
    by_cases ha : maxRetries ≤ a.retryCount
    · simp only [if_pos ha]
      exact qget_qset_ne _ _ _ hne
    · simp only [if_neg ha]
      exact qget_qset_ne _ _ _ hne

theorem drainFold_mem_untouched (l : List QueuedMessage) (s : QState)
    (evs : List QEvent) (e : QueuedMessage) (he : e ∈ s.queue)
    (h : ∀ qm ∈ l, qm.localId ≠ e.localId) :
    e ∈ (l.foldl drainBody (s, evs)).1.queue := by
  induction l generalizing s evs with
  | nil => exact he
  | cons a t ih =>
    rw [List.foldl_cons, drainBody_eq]
    refine ih _ _ ?_ (fun qm hqm => h qm (List.mem_cons.mpr (Or.inr hqm)))
    have hne : a.localId ≠ e.localId := h a (List.mem_cons_self a t)
    by_cases ha : maxRetries ≤ a.retryCount
    · simp only [if_pos ha]
      exact mem_qset_of_ne _ he (fun hc => hne hc.symm)
    · simp only [if_neg ha]
      exact mem_qset_of_ne _ he (fun hc => hne hc.symm)

theorem drainFold_qget_processed (l : List QueuedMessage) (s : QState)
    (evs : List QEvent) (qm : QueuedMessage) (hmem : qm ∈ l)
    (hnd : (l.map (·.localId)).Nodup) :
    qget (l.foldl drainBody (s, evs)).1.queue qm.localId =
      some (if maxRetries ≤ qm.retryCount then { qm with status := .failed }
            else { qm with status := .sending }) := by
  induction l generalizing s evs with
  | nil => simp at hmem
  | cons a t ih =>
    simp only [List.map_cons, List.nodup_cons] at hnd
    rcases List.mem_cons.mp hmem with rfl | ht
    · rw [List.foldl_cons, drainBody_eq]
      have hkeys : ∀ e ∈ t, e.localId ≠ qm.localId := by
        intro e hee hc
        exact hnd.1 (hc ▸ List.mem_map.mpr ⟨e, hee, rfl⟩)
      rw [drainFold_qget_untouched _ _ _ _ hkeys]
      simp only
      by_cases ha : maxRetries ≤ qm.retryCount
      · simpa [ha] using qget_qset_self s.queue { qm with status := .failed }
      · simpa [ha] using qget_qset_self s.queue { qm with status := .sending }
    · rw [List.foldl_cons, drainBody_eq]
      exact ih _ _ ht hnd.2

theorem drainFold_store (l : List QueuedMessage) (s : QState)
    (evs : List QEvent) (hs : s.store = saveQueue s.queue) :
    (l.foldl drainBody (s, evs)).1.store =
      saveQueue (l.foldl drainBody (s, evs)).1.queue := by
  induction l generalizing s evs with
  | nil => exact hs
  | cons a t ih =>
    rw [List.foldl_cons, drainBody_eq]
    exact ih _ _ rfl

theorem drainFold_nodup (l : List QueuedMessage) (s : QState)
    (evs : List QEvent) (h : NodupKeys s.queue) :
    NodupKeys (l.foldl drainBody (s, evs)).1.queue := by
  induction l generalizing s evs with
  | nil => exact h
  | cons a t ih =>
    rw [List.foldl_cons, drainBody_eq]
    exact ih _ _ (nodupKeys_qset _ h)

theorem drainFold_database (l : List QueuedMessage) (s : QState)
    (evs : List QEvent) :
    (l.foldl drainBody (s, evs)).1.database = s.database ∧
    (l.foldl drainBody (s, evs)).1.now = s.now := by
  induction l generalizing s evs with
  | nil => exact ⟨rfl, rfl⟩
  | cons a t ih =>
    rw [List.foldl_cons, drainBody_eq]
    exact ih _ _

theorem attemptsList_map_drainEventOf (l : List QueuedMessage) :
    attemptsList (l.map drainEventOf) =
      (l.filter (fun qm => qm.retryCount < maxRetries)).map
        (fun qm => (qm.localId, qm.message.id)) := by
  induction l with
  | nil => rfl
  | cons a t ih =>
    by_cases ha : maxRetries ≤ a.retryCount
    · have : ¬ a.retryCount < maxRetries := not_lt.mpr ha
      simp only [List.map_cons, attemptsList, List.filterMap_cons,
        drainEventOf, if_pos ha]
      simpa [attemptsList, this] using ih
    · have : a.retryCount < maxRetries := lt_of_not_le ha
      simp only [List.map_cons, attemptsList, List.filterMap_cons,
        drainEventOf, if_neg ha]
      simpa [attemptsList, this] using ih

theorem attempt_mem_map_drainEventOf {l : List QueuedMessage}
    {lid k r : String}
    (h : QEvent.attemptWrite lid k r ∈ l.map drainEventOf) :
    ∃ qm ∈ l, qm.localId = lid ∧ qm.message.id = k ∧
      qm.retryCount < maxRetries := by
  rcases List.mem_map.mp h with ⟨qm, hqm, heq⟩
  by_cases ha : maxRetries ≤ qm.retryCount
  · exfalso
    unfold drainEventOf at heq
    rw [if_pos ha] at heq
    exact QEvent.noConfusion heq
  · refine ⟨qm, hqm, ?_, ?_, lt_of_not_le ha⟩ <;>
    · unfold drainEventOf at heq
      rw [if_neg ha] at heq
      simp only [QEvent.attemptWrite.injEq] at heq
      tauto

/-! ## C4 -/

/-- C4 counterexample: entry "L1" is enqueued and attempted, the attempt
fails — the entry returns to `PENDING` with retry count 1 and a 1-second
backoff timer is scheduled — and then, with the clock still at 0 (the
scheduled next-attempt time has **not** elapsed), enqueueing a second
message triggers a drain pass that immediately attempts "L1" again.  This
refutes the clause that entries with retry counter ≥ 1 are attempted only
once their scheduled next-attempt time has elapsed. -/
theorem C4_counterexample :
    (runOps initState earlyDrainOps).1.now = 0 ∧
    QEvent.retryScheduled "L1" 1 ∈ (runOps initState earlyDrainOps).2 ∧
    (qget (runOps initState earlyDrainOps).1.queue "L1").map
        (fun e => (e.status, e.retryCount))
      = some (MessageStatus.pending, 1) ∧
    QEvent.attemptWrite "L1" "m1" "r1" ∈
      (applyOp (runOps initState earlyDrainOps).1
        (.enqueue exMessage2 "L2")).2 := by
  decide

/-- C4 (amended): a drain pass attempts delivery for exactly the entries
whose status is `PENDING` and whose retry counter is below the maximum of
5 — with **no** regard to any scheduled next-attempt time: backoff only
delays the timer that triggers the next drain, and a drain pass triggered
earlier (e.g. by a new enqueue) attempts every pending entry immediately.
Each selected entry is transitioned to `SENDING` before its remote write
is attempted, and entries already at `SENDING` are skipped: they are left
unchanged and no delivery attempt is made for them. -/
theorem C4_amended_drain_selection (st : QState) (hdb : st.database = true)
    (hnd : NodupKeys st.queue)
    (hfm : ∀ e ∈ st.queue, e.status = MessageStatus.failed →
      maxRetries ≤ e.retryCount) :
    attemptsList (drainStep st).2 =
      (st.queue.filter (fun e => e.status = MessageStatus.pending ∧
        e.retryCount < maxRetries)).map (fun e => (e.localId, e.message.id)) ∧
    (∀ e ∈ st.queue, e.status = MessageStatus.pending →
      e.retryCount < maxRetries →
      qget (drainStep st).1.queue e.localId =
        some { e with status := .sending }) ∧
    (∀ e ∈ st.queue, e.status = MessageStatus.sending →
      qget (drainStep st).1.queue e.localId = some e ∧
      (∀ k r, QEvent.attemptWrite e.localId k r ∉ (drainStep st).2)) := by
  have hpendsub : ∀ qm ∈ st.queue.filter
      (fun e => e.status = MessageStatus.pending ∨ e.status = .failed),
      qm ∈ st.queue ∧ (qm.status = MessageStatus.pending ∨
        qm.status = MessageStatus.failed) := by
    intro qm hqm
    rw [List.mem_filter] at hqm
    exact ⟨hqm.1, by simpa using hqm.2⟩
  have hpendnd : ((st.queue.filter
      (fun e => e.status = MessageStatus.pending ∨ e.status = .failed)).map
        (·.localId)).Nodup :=
    nodupKeys_filter _ hnd
  have hdrain : drainStep st =
      (st.queue.filter
        (fun e => e.status = MessageStatus.pending ∨ e.status = .failed)).foldl
        drainBody (st, []) := by
    simp [drainStep, hdb]
  refine ⟨?_, ?_, ?_⟩
  · rw [hdrain, drainFold_events, List.nil_append,
      attemptsList_map_drainEventOf, List.filter_filter]
    refine congrArg _ (List.filter_congr ?_)
    intro e he
    by_cases hp : e.status = MessageStatus.pending
    · simp [hp]
    · by_cases hf : e.status = MessageStatus.failed
      · have := hfm e he hf
        simp [hp, hf, not_lt.mpr this]
      · simp [hp, hf]
  · intro e he hp hr
    have hmem : e ∈ st.queue.filter
        (fun e => e.status = MessageStatus.pending ∨ e.status = .failed) :=
      List.mem_filter.mpr ⟨he, by simp [hp]⟩
    rw [hdrain, drainFold_qget_processed _ _ _ e hmem hpendnd,
      if_neg (not_le.mpr hr)]
  · intro e he hs
    have hkeys : ∀ qm ∈ st.queue.filter
        (fun e => e.status = MessageStatus.pending ∨ e.status = .failed),
        qm.localId ≠ e.localId := by
      intro qm hqm hc
      rcases hpendsub qm hqm with ⟨hqm', hst⟩
      have := nodupKeys_key_inj hnd hqm' he hc
      subst this
      rcases hst with h' | h' <;> rw [hs] at h' <;> exact
        MessageStatus.noConfusion h'
    constructor
    · rw [hdrain, drainFold_qget_untouched _ _ _ _ hkeys]
      exact qget_of_mem hnd he
    · intro k r hmem
      rw [hdrain, drainFold_events, List.nil_append] at hmem
      rcases attempt_mem_map_drainEventOf hmem with ⟨qm, hqm, hlid, _, _⟩
      exact hkeys qm hqm hlid

/-- C4 witness: on the concrete state `exQState` (a fresh pending entry,
an in-flight `SENDING` entry and an exhausted `FAILED` entry), the drain
pass attempts exactly the pending entry and leaves the `SENDING` entry
untouched. -/
theorem C4_witness :
    attemptsList (drainStep exQState).2 = [("L1", "m1")] ∧
    qget (drainStep exQState).1.queue "L2" = some exEntry2 :=
  ⟨((C4_amended_drain_selection exQState rfl (by unfold NodupKeys; decide)
      (by decide)).1).trans (by decide),
   ((C4_amended_drain_selection exQState rfl (by unfold NodupKeys; decide)
      (by decide)).2.2 exEntry2 (by decide) (by decide)).1⟩

/-! ## Persistence round-trip lemmas -/

theorem parseEntry_toDictionary (e : QueuedMessage) (now : Nat) :
    parseEntry now e.toDictionary = some (reloadEntry e now) := by
  obtain ⟨lid, msg, status, rc, ca⟩ := e
  cases status <;> rfl

theorem toDictionary_reloadEntry (e : QueuedMessage) (now : Nat) :
    (reloadEntry e now).toDictionary = e.toDictionary := rfl

theorem qset_fresh (acc : List QueuedMessage) (qm : QueuedMessage)
    (h : ∀ a ∈ acc, a.localId ≠ qm.localId) : qset acc qm = acc ++ [qm] := by
  induction acc with
  | nil => rfl
  | cons a t ih =>
    have ha : ¬ a.localId = qm.localId := h a (List.mem_cons_self a t)
    simp only [qset, if_neg ha, List.cons_append, List.cons.injEq,
      true_and]
    exact ih (fun b hb => h b (List.mem_cons.mpr (Or.inr hb)))

theorem loadQueueFrom_saveQueue_aux (q acc : List QueuedMessage) (now : Nat)
    (hfresh : ∀ e ∈ q, ∀ a ∈ acc, a.localId ≠ e.localId)
    (hnd : NodupKeys q) :
    (saveQueue q).foldl
      (fun q' d => match parseEntry now d with
        | some qm => qset q' qm
        | none => q')
      acc
      = acc ++ q.map (reloadEntry · now) := by
  induction q generalizing acc with
  | nil => simp [saveQueue]
  | cons e t ih =>
    unfold NodupKeys qkeys at hnd
    simp only [List.map_cons, List.nodup_cons] at hnd
    have hstep : qset acc (reloadEntry e now) = acc ++ [reloadEntry e now] :=
      qset_fresh acc _ (fun a ha =>
        hfresh e (List.mem_cons_self e t) a ha)
    simp only [saveQueue, List.map_cons, List.foldl_cons,
      parseEntry_toDictionary, hstep]
    have hfresh' : ∀ x ∈ t, ∀ a ∈ acc ++ [reloadEntry e now],
        a.localId ≠ x.localId := by
      intro x hx a ha
      rcases List.mem_append.mp ha with ha' | ha'
      · exact hfresh x (List.mem_cons.mpr (Or.inr hx)) a ha'
      · rcases List.mem_singleton.mp ha' with rfl
        intro hc
        exact hnd.1 (by
          simpa [reloadEntry] using
            (hc ▸ List.mem_map.mpr ⟨x, hx, rfl⟩ :
              (reloadEntry e now).localId ∈ t.map (·.localId)))
    have := ih (acc ++ [reloadEntry e now]) hfresh' hnd.2
    simp only [saveQueue] at this
    rw [this]
    simp

theorem loadQueueFrom_saveQueue (q : List QueuedMessage) (now : Nat)
    (hnd : NodupKeys q) :
    loadQueueFrom (saveQueue q) now = q.map (reloadEntry · now) := by
  unfold loadQueueFrom
  simpa using loadQueueFrom_saveQueue_aux q [] now (by simp) hnd

theorem nodupKeys_append_fresh {q : List QueuedMessage}
    (qm : QueuedMessage) (hnd : NodupKeys q)
    (hfresh : ∀ a ∈ q, a.localId ≠ qm.localId) :
    NodupKeys (q ++ [qm]) := by
  unfold NodupKeys qkeys at hnd ⊢
  rw [List.map_append, List.nodup_append]
  refine ⟨hnd, by simp, ?_⟩
  intro k hk
  rcases List.mem_map.mp hk with ⟨a, ha, rfl⟩
  simpa using fun hc => hfresh a ha hc

/-! ## C5 -/

/-- C5: enqueueing a message `m` (while no delivery can be attempted — the
remote handle is absent) and then restarting the process, so that the
queue is recovered from the durable store via `saveQueue`/`loadQueue`,
leaves exactly one entry for `m` in the queue: it is `PENDING`, has retry
count 0, carries the caller's local identifier and `m`'s idempotency key —
the message is neither lost nor duplicated by the round-trip. -/
theorem C5_enqueue_restart_exactly_one_pending (st : QState)
    (m : ChatMessage) (lid : String)
    (hdb : st.database = false)
    (hnd : NodupKeys st.queue)
    (hlid : ∀ e ∈ st.queue, e.localId ≠ lid)
    (hmid : ∀ e ∈ st.queue, e.message.id ≠ m.id) :
    (applyOp (applyOp st (.enqueue m lid)).1 .restart).1.queue.filter
        (fun e => e.message.id = m.id)
      = [reloadEntry { localId := lid, message := m, status := .pending,
                       retryCount := 0, createdAt := st.now } st.now] ∧
    (reloadEntry { localId := lid, message := m, status := .pending,
                   retryCount := 0, createdAt := st.now } st.now).status
      = MessageStatus.pending ∧
    (reloadEntry { localId := lid, message := m, status := .pending,
                   retryCount := 0, createdAt := st.now } st.now).retryCount
      = 0 ∧
    (reloadEntry { localId := lid, message := m, status := .pending,
                   retryCount := 0, createdAt := st.now } st.now).localId
      = lid ∧
    (reloadEntry { localId := lid, message := m, status := .pending,
                   retryCount := 0, createdAt := st.now } st.now).message.id
      = m.id := by
  set qm : QueuedMessage :=
    { localId := lid, message := m, status := .pending, retryCount := 0,
      createdAt := st.now } with hqm
  have hq : qset st.queue qm = st.queue ++ [qm] :=
    qset_fresh _ _ (fun a ha => hlid a ha)
  have hnd' : NodupKeys (st.queue ++ [qm]) :=
    nodupKeys_append_fresh qm hnd (fun a ha => hlid a ha)
  have hs1 : applyOp st (.enqueue m lid) =
      ({ st with queue := st.queue ++ [qm],
                 store := saveQueue (st.queue ++ [qm]) }, []) := by
    simp [applyOp, enqueueStep, ← hqm, hq, drainStep, hdb]
  refine ⟨?_, rfl, rfl, rfl, rfl⟩
  rw [hs1]
  show (loadQueueFrom (saveQueue (st.queue ++ [qm])) st.now).filter
      (fun e => e.message.id = m.id) = [reloadEntry qm st.now]
  rw [loadQueueFrom_saveQueue _ _ hnd']
  rw [List.filter_map]
  have hfilter : (st.queue ++ [qm]).filter
      ((fun e => decide (e.message.id = m.id)) ∘ (reloadEntry · st.now))
      = [qm] := by
    rw [List.filter_append]
    have h1 : st.queue.filter
        ((fun e => decide (e.message.id = m.id)) ∘ (reloadEntry · st.now))
        = [] := by
      rw [List.filter_eq_nil]
      intro a ha
      simpa [reloadEntry] using hmid a ha
    have h2 : List.filter
        ((fun e => decide (e.message.id = m.id)) ∘ (reloadEntry · st.now))
        [qm] = [qm] := by
      simp [reloadEntry]
    rw [h1, h2, List.nil_append]
  rw [hfilter]
  rfl

/-- C5 witness: the concrete message `exMessage` enqueued at local id "L"
into a fresh offline queue survives the save/load restart as exactly one
pending entry. -/
theorem C5_witness :
    (applyOp (applyOp initState (.enqueue exMessage "L")).1 .restart).1.queue.filter
        (fun e => e.message.id = exMessage.id)
      = [reloadEntry { localId := "L", message := exMessage,
                       status := .pending, retryCount := 0,
                       createdAt := initState.now } initState.now] :=
  (C5_enqueue_restart_exactly_one_pending initState exMessage "L" rfl
    (by unfold NodupKeys; decide) (by decide) (by decide)).1

end SuperApp
